import Mathlib

/-!
Verification development for the json-e Rust repository: a regex-driven
tokenizer feeding a table-driven Pratt (precedence-climbing) expression
parser, instantiated by a small JSON-expression interpreter configuration
(src/src/interpreter.rs).

The interpreter configuration (patterns, token type list, precedence table,
prefix/infix rule tables, and the handler bodies) is embedded from
src/src/interpreter.rs.  The generic engine (tokenizer.rs, prattparser.rs)
is not present under src/, so those parts are modelled from the spec
(spec.md sections 4.1, 4.2 and 6); each such definition carries a doc
comment starting with the words Modelled from the spec.

Numbers: the Rust code stores f64 values (json::number::Number).  All the
literals reachable in this configuration are short decimal strings, whose
observable arithmetic (negation, identity, equality with the literal used
in the tests) is exact; the embedding uses the exact rationals.
-/

/-- The JSON-like value produced by the interpreter configuration; embeds
the tagged union of the json crate (null / boolean / number / string, with
the number payload as an exact rational).  The engine is generic over this
type (spec section 6) and the configuration under verification neither
produces nor inspects the collection variants, so they are elided. -/
inductive JsonValue where
  | null : JsonValue
  | boolean : Bool → JsonValue
  | number : ℚ → JsonValue
  | str : String → JsonValue
deriving Repr, DecidableEq

/-- Embeds JsonValue::as_number of the json crate: only the Number
constructor carries a numeric value. -/
def JsonValue.as_number : JsonValue → Option ℚ
  | JsonValue.number q => some q
  | _ => none

/-- The public Error enum exactly as declared in src/src/errors.rs
(lines 3-7): a single variant carrying a message. -/
inductive ErrorDecl where
  | SyntaxError : String → ErrorDecl
deriving Repr, DecidableEq

/-- The error type the interpreter code (src/src/interpreter.rs) actually
requires: it constructs Error::InterpreterError at lines 87-100, a variant
that src/src/errors.rs does not declare.  The spec (section 7) gives the
intended two-kind taxonomy, embedded here. -/
inductive Error where
  | SyntaxError : String → Error
  | InterpreterError : String → Error
deriving Repr, DecidableEq

deriving instance DecidableEq for Except

/-- Modelled from the spec (section 3): a token is the type tag, the
matched text and the source position. -/
structure Token where
  ty : String
  value : List Char
  pos : Nat
deriving Repr, DecidableEq

/-- A word character in the sense of the regex class [a-zA-Z_0-9]. -/
def isWordChar (c : Char) : Bool := c.isAlpha || c.isDigit || c == '_'

/-- Whitespace in the sense of the skip pattern regex \s+. -/
def isSpaceChar (c : Char) : Bool := c == ' ' || c == '\t' || c == '\n' || c == '\r'

/-- Modelled from the spec (section 4.1): an anchored match of the regex
[0-9]+(?:\.[0-9]+)? registered for the token type number in
src/src/interpreter.rs line 10; returns the greedy match length. -/
def matchNumber (cs : List Char) : Option Nat :=
  let ip := cs.takeWhile Char.isDigit
  if ip.isEmpty then none
  else
    match cs.drop ip.length with
    | '.' :: rest =>
      let fp := rest.takeWhile Char.isDigit
      if fp.isEmpty then some ip.length else some (ip.length + 1 + fp.length)
    | _ => some ip.length

/-- Modelled from the spec (section 4.1): anchored match of the regex
[a-zA-Z_][a-zA-Z_0-9]* registered for the token type identifier. -/
def matchIdent (cs : List Char) : Option Nat :=
  match cs with
  | [] => none
  | c :: rest =>
    if c.isAlpha || c == '_' then some (1 + (rest.takeWhile isWordChar).length)
    else none

/-- Modelled from the spec (section 4.1): anchored match of the regex
\x27[^\x27]*\x27|"[^"]*" registered for the token type string. -/
def matchStringLit (cs : List Char) : Option Nat :=
  match cs with
  | [] => none
  | c :: rest =>
    if c == '\x27' || c == '"' then
      let body := rest.takeWhile (fun d => !(d == c))
      match rest.drop body.length with
      | d :: _ => if d == c then some (body.length + 2) else none
      | [] => none
    else none

/-- Modelled from the spec (section 4.1): anchored match of a keyword
regex such as true(?![a-zA-Z_0-9]) — the literal word followed by a
negative lookahead for a word character. -/
def matchKeyword (kw : List Char) (cs : List Char) : Option Nat :=
  if kw.isPrefixOf cs then
    match cs.drop kw.length with
    | [] => some kw.length
    | c :: _ => if isWordChar c then none else some kw.length
  else none

/-- Modelled from the spec (sections 3 and 4.1): a bare-symbol token type
is matched structurally, as the literal character sequence of its name. -/
def matchLit (sym : List Char) (cs : List Char) : Option Nat :=
  if sym.isPrefixOf cs then some sym.length else none

/-- The named patterns map inserted in src/src/interpreter.rs lines 9-16,
in insertion order, as (name, regex source) pairs. -/
def patterns : List (String × String) :=
  [ ("number", "[0-9]+(?:\\.[0-9]+)?"),
    ("identifier", "[a-zA-Z_][a-zA-Z_0-9]*"),
    ("string", "\x27[^\x27]*\x27|\"[^\"]*\""),
    ("true", "true(?![a-zA-Z_0-9])"),
    ("false", "false(?![a-zA-Z_0-9])"),
    ("in", "in(?![a-zA-Z_0-9])"),
    ("null", "null(?![a-zA-Z_0-9])") ]

/-- The token_types vector of src/src/interpreter.rs lines 18-49, in
declaration (match priority) order. -/
def token_types : List String :=
  [ "**", "+", "-", "*", "/", "[", "]", ".", "(", ")", "\x7b", "\x7d",
    ":", ",", ">=", "<=", "<", ">", "==", "!=", "!", "&&", "||",
    "true", "false", "in", "null", "number", "identifier", "string" ]

/-- The precedence table of src/src/interpreter.rs lines 52-65: an ordered
list of levels, lowest binding power first (spec section 3). -/
def precedence : List (List String) :=
  [ ["||"], ["&&"], ["in"], ["==", "!="], [">=", "<=", "<", ">"],
    ["+", "-"], ["*", "/"], ["**-right-associative"], ["**"],
    ["[", "."], ["("], ["unary"] ]

/-- Dispatch from a token type name to its anchored matcher: the seven
named types use their registered regexes, every other type is matched as
a bare symbol literal (spec section 3). -/
def matchType (ty : String) (cs : List Char) : Option Nat :=
  if ty = "number" then matchNumber cs
  else if ty = "identifier" then matchIdent cs
  else if ty = "string" then matchStringLit cs
  else if ty = "true" then matchKeyword ['t', 'r', 'u', 'e'] cs
  else if ty = "false" then matchKeyword ['f', 'a', 'l', 's', 'e'] cs
  else if ty = "in" then matchKeyword ['i', 'n'] cs
  else if ty = "null" then matchKeyword ['n', 'u', 'l', 'l'] cs
  else matchLit ty.data cs

/-- Modelled from the spec (section 4.1): try each token type in declared
priority order, anchored at the current position; first match wins. -/
def firstMatch : List String → List Char → Option (String × Nat)
  | [], _ => none
  | ty :: tys, cs =>
    match matchType ty cs with
    | some n => some (ty, n)
    | none => firstMatch tys cs

/-- Modelled from the spec (section 4.1): the tokenizer loop.  Skip
whitespace, stop at end of input, emit the first matching token and
advance, or fail with a SyntaxError when nothing matches.  The fuel
argument bounds the number of emitted tokens; every reachable matcher
consumes at least one character, so input length + 1 fuel is enough. -/
def tokenizeAux : Nat → List Char → Nat → Except Error (List Token)
  | fuel, cs, pos =>
    let ws := cs.takeWhile isSpaceChar
    let cs2 := cs.drop ws.length
    let pos2 := pos + ws.length
    match cs2 with
    | [] => Except.ok []
    | _ =>
      match firstMatch token_types cs2 with
      | none => Except.error (Error.SyntaxError ("unexpected character at position " ++ toString pos2))
      | some (ty, n) =>
        match fuel with
        | 0 => Except.error (Error.SyntaxError "tokenizer fuel exhausted")
        | Nat.succ f =>
          match tokenizeAux f (cs2.drop n) (pos2 + n) with
          | Except.error e => Except.error e
          | Except.ok ts => Except.ok (Token.mk ty (cs2.take n) pos2 :: ts)

/-- Modelled from the spec (section 4.1): tokenize a whole input string. -/
def tokenize (s : String) : Except Error (List Token) :=
  tokenizeAux (s.data.length + 1) s.data 0

/-- Modelled from the spec (section 3): the precedence value of a token
type is the index of the level containing it, 0 being the lowest. -/
def precedenceOfAux : List (List String) → Nat → String → Option Nat
  | [], _, _ => none
  | lvl :: rest, i, ty => if lvl.contains ty then some i else precedenceOfAux rest (i + 1) ty

/-- Precedence lookup over the reference precedence table. -/
def precedenceOf (ty : String) : Option Nat :=
  precedenceOfAux precedence 0 ty

/-- The precedence value named by "unary", at which the unary prefix
handlers of src/src/interpreter.rs re-enter the parser. -/
def unaryPrec : Nat :=
  match precedenceOf "unary" with
  | some p => p
  | none => 0

/-- The value of a digit string read in base 10. -/
def digitsVal (cs : List Char) : Nat :=
  cs.foldl (fun acc c => 10 * acc + (c.toNat - 48)) 0

/-- Embeds the token.value.parse::<f64>() conversion performed by the
number prefix rule (src/src/interpreter.rs line 73), restricted to the
texts the number pattern can produce, with exact rational arithmetic
standing in for f64.  Inputs of any other shape yield none (a conversion
failure). -/
def parseDecimal (cs : List Char) : Option ℚ :=
  let ip := cs.takeWhile Char.isDigit
  if ip.isEmpty then none
  else
    match cs.drop ip.length with
    | [] => some ((digitsVal ip : ℚ))
    | '.' :: fr =>
      if !fr.isEmpty && fr.all Char.isDigit then
        some ((digitsVal ip : ℚ) + (digitsVal fr : ℚ) / (10 : ℚ) ^ fr.length)
      else none
    | _ => none

/-- A prefix rule receives the consumed token, the re-entrant parse of the
Context (a function from a minimum precedence and the remaining tokens to
a value and the tokens left over), and the remaining tokens; this embeds
the fn(&Token, &mut Context) -> Result shape of src/src/interpreter.rs. -/
def PrefixRule : Type :=
  Token → (Nat → List Token → Except Error (JsonValue × List Token)) →
    List Token → Except Error (JsonValue × List Token)

/-- An infix rule additionally receives the left value, embedding the
fn(&JsonValue, &Token, &mut Context) -> Result shape. -/
def InfixRule : Type :=
  JsonValue → Token → (Nat → List Token → Except Error (JsonValue × List Token)) →
    List Token → Except Error (JsonValue × List Token)

/-- The number prefix rule of src/src/interpreter.rs lines 72-75: convert
the matched text as a floating literal; a conversion failure propagates
as an error (spec sections 4.2 and 7: a numeric-conversion failure is an
InterpreterError). -/
def prefixNumber : PrefixRule := fun t _recur ts =>
  match parseDecimal t.value with
  | some q => Except.ok (JsonValue.number q, ts)
  | none => Except.error (Error.InterpreterError "invalid float literal")

/-- The bang prefix rule of src/src/interpreter.rs lines 77-80: it only
re-enters the parser at the unary level and returns that value. -/
def prefixBang : PrefixRule := fun _t recur ts => recur unaryPrec ts

/-- The numeric check and negation at the heart of the unary minus rule
(src/src/interpreter.rs lines 82-91). -/
def applyUnaryMinus (v : JsonValue) : Except Error JsonValue :=
  match v.as_number with
  | some n => Except.ok (JsonValue.number (-n))
  | none => Except.error (Error.InterpreterError "This operator expects a number")

/-- The numeric check of the unary plus rule (src/src/interpreter.rs
lines 93-102): the value itself when numeric, an error otherwise. -/
def applyUnaryPlus (v : JsonValue) : Except Error JsonValue :=
  match v.as_number with
  | some n => Except.ok (JsonValue.number n)
  | none => Except.error (Error.InterpreterError "This operator expects a number")

/-- The unary minus prefix rule of src/src/interpreter.rs lines 82-91:
parse a sub-expression at the unary level, then negate if numeric. -/
def prefixMinus : PrefixRule := fun _t recur ts =>
  match recur unaryPrec ts with
  | Except.error e => Except.error e
  | Except.ok (v, ts2) =>
    match applyUnaryMinus v with
    | Except.error e => Except.error e
    | Except.ok w => Except.ok (w, ts2)

/-- The unary plus prefix rule of src/src/interpreter.rs lines 93-102. -/
def prefixPlus : PrefixRule := fun _t recur ts =>
  match recur unaryPrec ts with
  | Except.error e => Except.error e
  | Except.ok (v, ts2) =>
    match applyUnaryPlus v with
    | Except.error e => Except.error e
    | Except.ok w => Except.ok (w, ts2)

/-- The prefix rule table built in src/src/interpreter.rs lines 67-102:
exactly number, bang, minus and plus are registered. -/
def prefix_rules (ty : String) : Option PrefixRule :=
  if ty = "number" then some prefixNumber
  else if ty = "!" then some prefixBang
  else if ty = "-" then some prefixMinus
  else if ty = "+" then some prefixPlus
  else none

/-- The infix rule table of src/src/interpreter.rs lines 106-109: declared
and left empty. -/
def infix_rules (_ty : String) : Option InfixRule := none

/-- Modelled from the spec (section 4.2, steps 4-5): with a left value in
hand, peek the next token; stop on end of stream, on a token without a
precedence, or on precedence at most the minimum; otherwise consume it,
fail with a SyntaxError when no infix rule is registered, or run the rule
and loop.  The fuel bounds the number of loop iterations. -/
def infixLoop : Nat → (Nat → List Token → Except Error (JsonValue × List Token)) →
    Nat → JsonValue → List Token → Except Error (JsonValue × List Token)
  | _, _, _, left, [] => Except.ok (left, [])
  | fuel, recur, minPrec, left, t :: rest =>
    match precedenceOf t.ty with
    | none => Except.ok (left, t :: rest)
    | some p =>
      if p ≤ minPrec then Except.ok (left, t :: rest)
      else
        match infix_rules t.ty with
        | none => Except.error (Error.SyntaxError ("no infix rule for token " ++ t.ty))
        | some h =>
          match fuel with
          | 0 => Except.error (Error.SyntaxError "parser fuel exhausted")
          | Nat.succ f =>
            match h left t recur rest with
            | Except.error e => Except.error e
            | Except.ok (left2, rest2) => infixLoop f recur minPrec left2 rest2

/-- Modelled from the spec (section 4.2, steps 1-6): the recursive core.
Pull the next token (end of stream is a SyntaxError), look up its prefix
rule (absence is a SyntaxError), run it to get the left value, then run
the infix loop.  Handlers re-enter through the passed-in Context parse,
here parseExpr itself at the remaining fuel; each re-entry follows the
consumption of at least one token, so tokens + 1 fuel suffices. -/
def parseExpr : Nat → Nat → List Token → Except Error (JsonValue × List Token)
  | 0, _, _ => Except.error (Error.SyntaxError "parser fuel exhausted")
  | Nat.succ _, _, [] => Except.error (Error.SyntaxError "unexpected end of input")
  | Nat.succ f, minPrec, t :: rest =>
    match prefix_rules t.ty with
    | none => Except.error (Error.SyntaxError ("no prefix rule for token " ++ t.ty))
    | some h =>
      match h t (parseExpr f) rest with
      | Except.error e => Except.error e
      | Except.ok (left, rest2) => infixLoop f (parseExpr f) minPrec left rest2

/-- Modelled from the spec (sections 4.2 and 6): the public parse entry
point — tokenize, then run the recursive core on the token stream with
the caller-supplied minimum precedence.  The bindings map is threaded for
identifier resolution; no registered handler of this configuration
consults it. -/
def parse (input : String) (_bindings : List (String × JsonValue)) (minPrec : Nat) :
    Except Error JsonValue :=
  match tokenize input with
  | Except.error e => Except.error e
  | Except.ok ts =>
    match parseExpr (ts.length + 1) minPrec ts with
    | Except.error e => Except.error e
    | Except.ok (v, _) => Except.ok v

/-- A bare-symbol literal token type in the sense of the spec (sections 3
and 6): a nonempty name made only of non-word characters, matched
structurally by the tokenizer rather than through the pattern map. -/
def isBareSymbol (ty : String) : Bool :=
  !ty.data.isEmpty && ty.data.all (fun c => !isWordChar c)

/-- Modelled from the spec (sections 3 and 6): the construction-time
validation of PrattParser::new.  It fails with a SyntaxError when a
token type has neither a pattern nor a bare-symbol name, and when a
precedence level references a token type outside token_types — except
that a level consisting of a single entry may hold a reserved pseudo-token
(an associativity or level marker such as unary, spec section 3), which
is exempt from the latter check: the reference configuration must
construct successfully (its tests unwrap it). -/
def newCheck (pats : List (String × String)) (tts : List String)
    (prec : List (List String)) : Except Error Unit :=
  match tts.find? (fun ty => !(pats.map Prod.fst).contains ty && !isBareSymbol ty) with
  | some ty =>
    Except.error (Error.SyntaxError ("token type " ++ ty ++ " has no pattern and is not a symbol"))
  | none =>
    match prec.find? (fun lvl => lvl.length != 1 && lvl.any (fun ty => !tts.contains ty)) with
    | some _ =>
      Except.error (Error.SyntaxError "precedence level references an unknown token type")
    | none => Except.ok ()

/-- The validation rule exactly as the claim states it (a refinement-side
definition following the spec words, for comparison with newCheck): every
token type named anywhere in the precedence table must be a member of
token_types. -/
def specStrictPrecedenceOk (tts : List String) (prec : List (List String)) : Bool :=
  prec.all (fun lvl => lvl.all (fun ty => tts.contains ty))

/-- The language of the number pattern [0-9]+(?:\.[0-9]+)?: one or more
digits, optionally followed by a dot and one or more digits.  This is the
claim-side denotation of a valid numeric literal. -/
def IsNumLit (cs : List Char) : Prop :=
  (cs ≠ [] ∧ ∀ c ∈ cs, c.isDigit) ∨
  ∃ a b, cs = a ++ '.' :: b ∧ a ≠ [] ∧ b ≠ [] ∧
    (∀ c ∈ a, c.isDigit) ∧ (∀ c ∈ b, c.isDigit)

/-- The numeric value denoted by a numeric literal: the integer part plus
the fractional part scaled by ten to the minus its width. -/
def numberVal (cs : List Char) : ℚ :=
  let ip := cs.takeWhile Char.isDigit
  match cs.drop ip.length with
  | '.' :: fr => (digitsVal ip : ℚ) + (digitsVal fr : ℚ) / (10 : ℚ) ^ fr.length
  | _ => (digitsVal ip : ℚ)

/-- The sign denoted by a chain of unary operator tokens applied outermost
first: each minus contributes a factor of minus one, plus and bang
contribute nothing. -/
def chainSign (sts : List Token) : ℚ :=
  sts.foldr (fun t acc => (if t.ty = "-" then -1 else 1) * acc) 1

/-- The tokens a chain of single-character operators occupies, one per
character, with consecutive positions. -/
def signToks : List Char → Nat → List Token
  | [], _ => []
  | c :: cs, p => Token.mk (String.singleton c) [c] p :: signToks cs (p + 1)

theorem beq_false_of_digit {c : Char} (hc : c.isDigit = true) (d : Char)
    (hd : d.isDigit = false) : (d == c) = false ∧ (c == d) = false := by
  constructor <;> {
    rw [beq_eq_false_iff_ne]
    intro he
    subst he
    rw [hc] at hd
    simp at hd
  }

theorem takeWhile_all_self {p : Char → Bool} :
    ∀ {l : List Char}, (∀ c ∈ l, p c = true) → l.takeWhile p = l := by
  intro l
  induction l with
  | nil => intro; rfl
  | cons c cs ih =>
    intro h
    simp [List.takeWhile, h c (by simp), ih (fun d hd => h d (by simp [hd]))]

theorem takeWhile_append_stop {p : Char → Bool} {d : Char} {b : List Char} :
    ∀ {a : List Char}, (∀ c ∈ a, p c = true) → p d = false →
      (a ++ d :: b).takeWhile p = a := by
  intro a
  induction a with
  | nil => intro _ hd; simp [List.takeWhile, hd]
  | cons c cs ih =>
    intro h hd
    simp only [List.cons_append, List.takeWhile, h c (by simp)]
    simp [ih (fun e he => h e (by simp [he])) hd]

theorem matchNumber_of_numLit {cs : List Char} (h : IsNumLit cs) :
    matchNumber cs = some cs.length := by
  rcases h with ⟨hne, hdig⟩ | ⟨a, b, rfl, ha, hb, hda, hdb⟩
  · have htw : cs.takeWhile Char.isDigit = cs := takeWhile_all_self hdig
    unfold matchNumber
    rw [htw]
    simp [List.isEmpty_iff, hne]
  · have htw : (a ++ '.' :: b).takeWhile Char.isDigit = a :=
      takeWhile_append_stop hda (by decide)
    have htwb : b.takeWhile Char.isDigit = b := takeWhile_all_self hdb
    unfold matchNumber
    rw [htw]
    simp only [List.isEmpty_iff, ha, if_false, List.drop_left, htwb]
    simp [List.isEmpty_iff, hb, ha]
    omega

theorem parseDecimal_of_numLit {cs : List Char} (h : IsNumLit cs) :
    parseDecimal cs = some (numberVal cs) := by
  rcases h with ⟨hne, hdig⟩ | ⟨a, b, rfl, ha, hb, hda, hdb⟩
  · have htw : cs.takeWhile Char.isDigit = cs := takeWhile_all_self hdig
    unfold parseDecimal numberVal
    rw [htw]
    simp [List.isEmpty_iff, hne, List.drop_length]
  · have htw : (a ++ '.' :: b).takeWhile Char.isDigit = a :=
      takeWhile_append_stop hda (by decide)
    unfold parseDecimal numberVal
    rw [htw]
    simp only [List.isEmpty_iff, ha, if_false, List.drop_left]
    rw [if_pos]
    simp only [Bool.and_eq_true, Bool.not_eq_true', List.isEmpty_eq_false, List.all_eq_true]
    exact ⟨hb, hdb⟩

theorem numLit_head_digit {cs : List Char} (h : IsNumLit cs) :
    ∃ c rest, cs = c :: rest ∧ c.isDigit = true := by
  rcases h with ⟨hne, hdig⟩ | ⟨a, b, hcs, ha, _, hda, _⟩
  · cases cs with
    | nil => exact absurd rfl hne
    | cons c rest => exact ⟨c, rest, rfl, hdig c (by simp)⟩
  · cases a with
    | nil => exact absurd rfl ha
    | cons c arest =>
      exact ⟨c, arest ++ '.' :: b, by simp [hcs], hda c (by simp)⟩

theorem firstMatch_digit {c : Char} (rest : List Char) (hc : c.isDigit = true)
    {n : Nat} (hm : matchNumber (c :: rest) = some n) :
    firstMatch token_types (c :: rest) = some ("number", n) := by
  have B := beq_false_of_digit hc
  simp [token_types, firstMatch, matchType, matchLit, matchKeyword, List.isPrefixOf,
    (B '*' (by decide)).1, (B '+' (by decide)).1, (B '-' (by decide)).1,
    (B '/' (by decide)).1, (B '[' (by decide)).1, (B ']' (by decide)).1,
    (B '.' (by decide)).1, (B '(' (by decide)).1, (B ')' (by decide)).1,
    (B '\x7b' (by decide)).1, (B '\x7d' (by decide)).1, (B ':' (by decide)).1,
    (B ',' (by decide)).1, (B '>' (by decide)).1, (B '<' (by decide)).1,
    (B '=' (by decide)).1, (B '!' (by decide)).1, (B '&' (by decide)).1,
    (B '|' (by decide)).1, (B 't' (by decide)).1, (B 'f' (by decide)).1,
    (B 'i' (by decide)).1, (B 'n' (by decide)).1, hm]

theorem isSpaceChar_of_digit {c : Char} (hc : c.isDigit = true) :
    isSpaceChar c = false := by
  have B := beq_false_of_digit hc
  simp [isSpaceChar, (B ' ' (by decide)).2, (B '\t' (by decide)).2,
    (B '\n' (by decide)).2, (B '\r' (by decide)).2]

theorem tokenizeAux_nil (fuel pos : Nat) : tokenizeAux fuel [] pos = Except.ok [] := by
  rw [tokenizeAux]
  simp [List.takeWhile]

theorem infixLoop_nil (fuel : Nat)
    (recur : Nat → List Token → Except Error (JsonValue × List Token))
    (minPrec : Nat) (left : JsonValue) :
    infixLoop fuel recur minPrec left [] = Except.ok (left, []) := by
  rw [infixLoop]

theorem infixLoop_ok_left {fuel minPrec : Nat}
    {recur : Nat → List Token → Except Error (JsonValue × List Token)}
    {left v : JsonValue} {ts ts2 : List Token}
    (h : infixLoop fuel recur minPrec left ts = Except.ok (v, ts2)) : v = left := by
  cases ts with
  | nil =>
    rw [infixLoop_nil] at h
    simp only [Except.ok.injEq, Prod.mk.injEq] at h
    exact h.1.symm
  | cons t rest =>
    rw [infixLoop] at h
    rcases hp : precedenceOf t.ty with _ | p <;> rw [hp] at h
    · simp at h
      exact h.1.symm
    · by_cases hle : p ≤ minPrec
      · simp [hle] at h
        exact h.1.symm
      · simp [hle, infix_rules] at h

theorem firstMatch_plus (rest : List Char) :
    firstMatch token_types ('+' :: rest) = some ("+", 1) := by
  simp [firstMatch, token_types, matchType, matchLit, List.isPrefixOf]

theorem firstMatch_minus (rest : List Char) :
    firstMatch token_types ('-' :: rest) = some ("-", 1) := by
  simp [firstMatch, token_types, matchType, matchLit, List.isPrefixOf]

theorem firstMatch_bang {d : Char} (rest : List Char) (hd : d.isDigit = true) :
    firstMatch token_types ('!' :: d :: rest) = some ("!", 1) := by
  simp [firstMatch, token_types, matchType, matchLit, matchKeyword, List.isPrefixOf,
    (beq_false_of_digit hd '=' (by decide)).1]

theorem prefix_rules_number : prefix_rules "number" = some prefixNumber := rfl

theorem prefix_rules_bang : prefix_rules "!" = some prefixBang := rfl

theorem prefix_rules_minus : prefix_rules "-" = some prefixMinus := rfl

theorem prefix_rules_plus : prefix_rules "+" = some prefixPlus := rfl

theorem parseExpr_chain (sts : List Token)
    (h : ∀ t ∈ sts, t.ty = "-" ∨ t.ty = "+" ∨ t.ty = "!")
    {ncs : List Char} {q : ℚ} (hq : parseDecimal ncs = some q) (ppos : Nat) :
    ∀ fuel minPrec, sts.length + 1 ≤ fuel →
      parseExpr fuel minPrec (sts ++ [Token.mk "number" ncs ppos]) =
        Except.ok (JsonValue.number (chainSign sts * q), []) := by
  induction sts with
  | nil =>
    intro fuel minPrec hf
    obtain ⟨f, rfl⟩ : ∃ f, fuel = f + 1 := ⟨fuel - 1, by omega⟩
    rw [List.nil_append, parseExpr]
    simp [prefix_rules_number, prefixNumber, hq, infixLoop_nil, chainSign]
  | cons t sts ih =>
    intro fuel minPrec hf
    obtain ⟨f, rfl⟩ : ∃ f, fuel = f + 1 := ⟨fuel - 1, by omega⟩
    have hrec := ih (fun u hu => h u (by simp [hu])) f unaryPrec (by simp at hf ⊢; omega)
    rcases h t (by simp) with hty | hty | hty
    · rw [List.cons_append, parseExpr, hty, prefix_rules_minus]
      simp [prefixMinus, hrec, applyUnaryMinus, JsonValue.as_number, infixLoop_nil,
        chainSign, hty]
    · rw [List.cons_append, parseExpr, hty, prefix_rules_plus]
      simp [prefixPlus, hrec, applyUnaryPlus, JsonValue.as_number, infixLoop_nil,
        chainSign, hty]
    · rw [List.cons_append, parseExpr, hty, prefix_rules_bang]
      simp [prefixBang, hrec, infixLoop_nil, chainSign, hty]

theorem tokenizeAux_numLit {cs : List Char} (h : IsNumLit cs) (pos : Nat)
    {fuel : Nat} (hf : 1 ≤ fuel) :
    tokenizeAux fuel cs pos = Except.ok [Token.mk "number" cs pos] := by
  obtain ⟨c, rest, rfl, hc⟩ := numLit_head_digit h
  have hm := matchNumber_of_numLit h
  have hfm := firstMatch_digit rest hc hm
  obtain ⟨f, rfl⟩ : ∃ f, fuel = f + 1 := ⟨fuel - 1, by omega⟩
  rw [tokenizeAux]
  simp only [List.takeWhile, isSpaceChar_of_digit hc, List.length_nil,
    List.drop_zero, Nat.add_zero, hfm]
  simp [List.drop_length, tokenizeAux_nil, List.take_length]

theorem tokenizeAux_signChain :
    ∀ (signs : List Char), (∀ c ∈ signs, c = '+' ∨ c = '-') →
      ∀ {cs : List Char}, IsNumLit cs → ∀ (pos fuel : Nat),
        signs.length + 1 ≤ fuel →
        tokenizeAux fuel (signs ++ cs) pos =
          Except.ok (signToks signs pos ++ [Token.mk "number" cs (pos + signs.length)]) := by
  intro signs
  induction signs with
  | nil =>
    intro _ cs hn pos fuel hf
    rw [List.nil_append, tokenizeAux_numLit hn pos (by omega)]
    simp [signToks]
  | cons c signs ih =>
    intro h cs hn pos fuel hf
    obtain ⟨f, rfl⟩ : ∃ f, fuel = f + 1 := ⟨fuel - 1, by omega⟩
    have hrec := ih (fun d hd => h d (by simp [hd])) hn (pos + 1) f
      (by simp at hf ⊢; omega)
    have e1 : pos + 1 + signs.length = pos + (signs.length + 1) := by omega
    rcases h c (by simp) with rfl | rfl
    · rw [List.cons_append, tokenizeAux]
      simp only [List.takeWhile, show isSpaceChar '+' = false from rfl, if_false,
        List.length_nil, List.drop_zero, Nat.add_zero, firstMatch_plus,
        List.drop_succ_cons, List.drop_zero, hrec, e1]
      simp [signToks, show String.singleton '+' = "+" from rfl]
    · rw [List.cons_append, tokenizeAux]
      simp only [List.takeWhile, show isSpaceChar '-' = false from rfl, if_false,
        List.length_nil, List.drop_zero, Nat.add_zero, firstMatch_minus,
        List.drop_succ_cons, List.drop_zero, hrec, e1]
      simp [signToks, show String.singleton '-' = "-" from rfl]

theorem signToks_ty {signs : List Char} (h : ∀ c ∈ signs, c = '+' ∨ c = '-') :
    ∀ (p : Nat) t, t ∈ signToks signs p → t.ty = "-" ∨ t.ty = "+" ∨ t.ty = "!" := by
  induction signs with
  | nil => intro p t ht; simp [signToks] at ht
  | cons c cs ih =>
    intro p t ht
    rw [signToks] at ht
    rcases List.mem_cons.mp ht with rfl | hmem
    · rcases h c (by simp) with rfl | rfl
      · right; left; rfl
      · left; rfl
    · exact ih (fun d hd => h d (by simp [hd])) (p + 1) t hmem

theorem signToks_length (signs : List Char) (p : Nat) :
    (signToks signs p).length = signs.length := by
  induction signs generalizing p with
  | nil => rfl
  | cons c cs ih => simp [signToks, ih]

theorem chainSign_cons (t : Token) (ts : List Token) :
    chainSign (t :: ts) = (if t.ty = "-" then -1 else 1) * chainSign ts := rfl

theorem chainSign_signToks {signs : List Char} (h : ∀ c ∈ signs, c = '+' ∨ c = '-') :
    ∀ p : Nat, chainSign (signToks signs p) = (-1 : ℚ) ^ (signs.count '-') := by
  induction signs with
  | nil => intro p; rfl
  | cons c cs ih =>
    intro p
    have ihp := ih (fun d hd => h d (by simp [hd])) (p + 1)
    rcases h c (by simp) with rfl | rfl
    · rw [signToks, chainSign_cons, if_neg (by decide : ¬(String.singleton '+' = "-")),
        ihp, one_mul]
      simp [List.count_cons]
    · rw [signToks, chainSign_cons, if_pos (by decide : String.singleton '-' = "-"), ihp]
      rw [show List.count '-' ('-' :: cs) = List.count '-' cs + 1 by simp [List.count_cons]]
      rw [pow_succ]
      ring


theorem numberVal_split {a : List Char} (b : List Char) (hda : ∀ c ∈ a, c.isDigit = true) :
    numberVal (a ++ '.' :: b) = (digitsVal a : ℚ) + (digitsVal b : ℚ) / (10 : ℚ) ^ b.length := by
  have htw := @takeWhile_append_stop Char.isDigit '.' b a hda (by decide : Char.isDigit '.' = false)
  unfold numberVal
  rw [htw]
  simp only [List.drop_left]

theorem parse_numLit_general {cs : List Char} (hn : IsNumLit cs) (minPrec : Nat) :
    parse (String.mk cs) [] minPrec = Except.ok (JsonValue.number (numberVal cs)) := by
  have hq := parseDecimal_of_numLit hn
  have hdata : (String.mk cs).data = cs := rfl
  rw [parse, tokenize, hdata, tokenizeAux_numLit hn 0 (by omega)]
  have hp := parseExpr_chain [] (by simp) hq 0 2 minPrec (by simp)
  rw [List.nil_append] at hp
  simp only [List.length_cons, List.length_nil, hp, chainSign]
  simp

theorem parse_signChain {signs : List Char} (h : ∀ c ∈ signs, c = '+' ∨ c = '-')
    {cs : List Char} (hn : IsNumLit cs) :
    parse (String.mk (signs ++ cs)) [] 0 =
      Except.ok (JsonValue.number ((-1 : ℚ) ^ (signs.count '-') * numberVal cs)) := by
  have hq := parseDecimal_of_numLit hn
  have hcs : cs ≠ [] := by
    obtain ⟨c, rest, rfl, _⟩ := numLit_head_digit hn
    simp
  rw [parse, tokenize, show (String.mk (signs ++ cs)).data = signs ++ cs from rfl]
  rw [tokenizeAux_signChain signs h hn 0 ((signs ++ cs).length + 1) (by simp)]
  have hlen : (signToks signs 0 ++ [Token.mk "number" cs (0 + signs.length)]).length
      = signs.length + 1 := by simp [signToks_length]
  have hp := parseExpr_chain (signToks signs 0) (fun t ht => signToks_ty h 0 t ht) hq
    (0 + signs.length) (signs.length + 1 + 1) 0 (by simp [signToks_length])
  simp only [hlen, hp, chainSign_signToks h 0]

/-- Claim C1: every valid numeric literal under the number pattern parses,
with empty bindings and minimum precedence 0, to the numeric value the
literal denotes; in particular parse of 23.67 yields 23.67. -/
theorem claimC1 :
    (∀ cs : List Char, IsNumLit cs →
      parse (String.mk cs) [] 0 = Except.ok (JsonValue.number (numberVal cs))) ∧
    parse "23.67" [] 0 = Except.ok (JsonValue.number 23.67) := by
  constructor
  · exact fun cs hn => parse_numLit_general hn 0
  · have h := @parse_numLit_general ['2', '3', '.', '6', '7']
      (Or.inr ⟨['2', '3'], ['6', '7'], rfl, by decide, by decide, by decide, by decide⟩) 0
    rw [show String.mk ['2', '3', '.', '6', '7'] = "23.67" from rfl] at h
    rw [h, show (['2', '3', '.', '6', '7'] : List Char) = ['2', '3'] ++ '.' :: ['6', '7'] from rfl,
      numberVal_split ['6', '7'] (by decide),
      show digitsVal ['2', '3'] = 23 from by decide,
      show digitsVal ['6', '7'] = 67 from by decide]
    norm_num

/-- Witness for claim C1: the general statement applied to the concrete
literal 7, with its hypothesis discharged. -/
theorem claimC1_witness :
    parse (String.mk ['7']) [] 0 = Except.ok (JsonValue.number (numberVal ['7'])) :=
  claimC1.1 ['7'] (Or.inl ⟨by decide, by decide⟩)

/-- Claim C2: chained unary sign operators compose as sign arithmetic —
a chain of plus and minus prefixes applied to a numeric literal yields the
literal value multiplied by minus one to the number of minus signs, unary
plus is the identity on parse results, and the five concrete examples of
the claim hold. -/
theorem claimC2 :
    (∀ signs : List Char, (∀ c ∈ signs, c = '+' ∨ c = '-') →
      ∀ cs : List Char, IsNumLit cs →
        parse (String.mk (signs ++ cs)) [] 0 =
          Except.ok (JsonValue.number ((-1 : ℚ) ^ (signs.count '-') * numberVal cs))) ∧
    (∀ cs : List Char, IsNumLit cs →
      parse (String.mk ('+' :: cs)) [] 0 = parse (String.mk cs) [] 0) ∧
    parse "--7" [] 0 = Except.ok (JsonValue.number 7) ∧
    parse "-7" [] 0 = Except.ok (JsonValue.number (-7)) ∧
    parse "-0" [] 0 = Except.ok (JsonValue.number 0) ∧
    parse "-+10" [] 0 = Except.ok (JsonValue.number (-10)) ∧
    parse "+-10" [] 0 = Except.ok (JsonValue.number (-10)) := by
  refine ⟨fun signs hs cs hn => parse_signChain hs hn, fun cs hn => ?_,
    by decide, by decide, by decide, by decide, by decide⟩
  have h := @parse_signChain ['+'] (by decide) cs hn
  rw [show (['+'] ++ cs) = '+' :: cs from rfl] at h
  rw [h, parse_numLit_general hn 0,
    show List.count '-' ['+'] = 0 from by decide]
  norm_num

/-- Witness for claim C2: the sign-chain statement applied to one minus
sign and the literal 7, hypotheses discharged concretely. -/
theorem claimC2_witness :
    parse (String.mk (['-'] ++ ['7'])) [] 0 =
      Except.ok (JsonValue.number ((-1 : ℚ) ^ (List.count '-' ['-']) * numberVal ['7'])) :=
  claimC2.1 ['-'] (by decide) ['7'] (Or.inl ⟨by decide, by decide⟩)

theorem tokenizeAux_bangNumLit {cs : List Char} (hn : IsNumLit cs) {fuel : Nat}
    (hf : 2 ≤ fuel) :
    tokenizeAux fuel ('!' :: cs) 0 =
      Except.ok [Token.mk "!" ['!'] 0, Token.mk "number" cs 1] := by
  obtain ⟨d, rest, rfl, hd⟩ := numLit_head_digit hn
  obtain ⟨f, rfl⟩ : ∃ f, fuel = f + 1 := ⟨fuel - 1, by omega⟩
  rw [tokenizeAux]
  simp only [List.takeWhile, show isSpaceChar '!' = false from rfl, if_false,
    List.length_nil, List.drop_zero, Nat.add_zero, firstMatch_bang rest hd,
    List.drop_succ_cons, List.drop_zero, Nat.zero_add]
  rw [tokenizeAux_numLit hn 1 (by omega)]
  simp

/-- Claim C10: the bang prefix rule performs no logical negation — it
returns the sub-expression parsed at the unary level unchanged, so a bang
applied to any numeric literal parses to the same result as the literal
alone; in particular parse of bang 5 yields 5. -/
theorem claimC10 :
    (∀ (t : Token) (recur : Nat → List Token → Except Error (JsonValue × List Token))
      (ts : List Token), prefixBang t recur ts = recur unaryPrec ts) ∧
    (∀ cs : List Char, IsNumLit cs →
      parse (String.mk ('!' :: cs)) [] 0 = parse (String.mk cs) [] 0) ∧
    parse "!5" [] 0 = Except.ok (JsonValue.number 5) := by
  refine ⟨fun t recur ts => rfl, fun cs hn => ?_, by decide⟩
  have hq := parseDecimal_of_numLit hn
  rw [parse, tokenize, show (String.mk ('!' :: cs)).data = '!' :: cs from rfl]
  rw [tokenizeAux_bangNumLit hn (by simp)]
  have hp := parseExpr_chain [Token.mk "!" ['!'] 0] (by simp) hq 1 3 0 (by simp)
  rw [show ([Token.mk "!" ['!'] 0] ++ [Token.mk "number" cs 1])
      = [Token.mk "!" ['!'] 0, Token.mk "number" cs 1] from rfl] at hp
  have hone : chainSign [Token.mk "!" ['!'] 0] = 1 := by
    rw [chainSign_cons, if_neg (by decide : ¬(("!" : String) = "-"))]
    simp [chainSign]
  simp only [List.length_cons, List.length_nil, hp, hone, one_mul]
  rw [parse_numLit_general hn 0]

/-- Witness for claim C10: the parse-level statement applied to the
literal 5, hypothesis discharged concretely. -/
theorem claimC10_witness :
    parse (String.mk ('!' :: ['5'])) [] 0 = parse (String.mk ['5']) [] 0 :=
  claimC10.2.1 ['5'] (Or.inl ⟨by decide, by decide⟩)

/-- Claim C3: each unary handler parses a sub-expression at the unary
precedence level through the Context; whenever the resulting value is not
numeric it returns the InterpreterError saying the operator expects a
number, and when it is numeric, minus negates it and plus returns it
unchanged.  The first two conjuncts tie the named handlers to the rule
table. -/
theorem claimC3 :
    prefix_rules "-" = some prefixMinus ∧ prefix_rules "+" = some prefixPlus ∧
    ∀ (recur : Nat → List Token → Except Error (JsonValue × List Token))
      (t : Token) (ts ts2 : List Token) (v : JsonValue),
      recur unaryPrec ts = Except.ok (v, ts2) →
      ((v.as_number = none →
        prefixMinus t recur ts =
          Except.error (Error.InterpreterError "This operator expects a number") ∧
        prefixPlus t recur ts =
          Except.error (Error.InterpreterError "This operator expects a number")) ∧
      (∀ n : ℚ, v.as_number = some n →
        prefixMinus t recur ts = Except.ok (JsonValue.number (-n), ts2) ∧
        prefixPlus t recur ts = Except.ok (JsonValue.number n, ts2))) := by
  refine ⟨rfl, rfl, ?_⟩
  intro recur t ts ts2 v hrec
  constructor
  · intro hnone
    constructor
    · rw [prefixMinus]
      simp only [hrec, applyUnaryMinus, hnone]
    · rw [prefixPlus]
      simp only [hrec, applyUnaryPlus, hnone]
  · intro n hsome
    constructor
    · rw [prefixMinus]
      simp only [hrec, applyUnaryMinus, hsome]
    · rw [prefixPlus]
      simp only [hrec, applyUnaryPlus, hsome]

/-- Witness for claim C3: both branches exercised at concrete contexts —
a context whose unary sub-parse returns a string makes minus fail with the
InterpreterError, and one returning the number 7 makes minus negate. -/
theorem claimC3_witness :
    prefixMinus (Token.mk "-" ['-'] 0) (fun _ _ => Except.ok (JsonValue.str "x", [])) [] =
      Except.error (Error.InterpreterError "This operator expects a number") ∧
    prefixMinus (Token.mk "-" ['-'] 0) (fun _ _ => Except.ok (JsonValue.number 7, [])) [] =
      Except.ok (JsonValue.number (-7), []) :=
  ⟨((claimC3.2.2 (fun _ _ => Except.ok (JsonValue.str "x", []))
      (Token.mk "-" ['-'] 0) [] [] (JsonValue.str "x") rfl).1 rfl).1,
    ((claimC3.2.2 (fun _ _ => Except.ok (JsonValue.number 7, []))
      (Token.mk "-" ['-'] 0) [] [] (JsonValue.number 7) rfl).2 7 rfl).1⟩

/-- Claim C4: the public Error enum declared in src/src/errors.rs has
exactly one variant, SyntaxError — not the two kinds the claim states —
while the interpreter code requires the undeclared InterpreterError
variant (the second conjunct evaluates the minus handler core at a
non-numeric value, which can only produce that undeclared variant). -/
theorem claimC4 :
    (∀ e : ErrorDecl, ∃ m, e = ErrorDecl.SyntaxError m) ∧
    applyUnaryMinus JsonValue.null =
      Except.error (Error.InterpreterError "This operator expects a number") := by
  constructor
  · intro e
    cases e with
    | SyntaxError m => exact ⟨m, rfl⟩
  · rfl

/-- Claim C7: parse is deterministic — identical configuration, input,
bindings and minimum precedence give identical outcomes; the embedding
carries no mutable state between invocations. -/
theorem claimC7 :
    ∀ (input1 input2 : String) (b1 b2 : List (String × JsonValue)) (mp1 mp2 : Nat),
      input1 = input2 → b1 = b2 → mp1 = mp2 →
      parse input1 b1 mp1 = parse input2 b2 mp2 := by
  intro i1 i2 b1 b2 m1 m2 hi hb hm
  subst hi
  subst hb
  subst hm
  rfl

/-- Witness for claim C7: two invocations on the literal 1 agree. -/
theorem claimC7_witness : parse "1" [] 0 = parse "1" [] 0 :=
  claimC7 "1" "1" [] [] 0 0 rfl rfl rfl

/-- Claim C8: the infix rule table is empty, so once a left value has been
parsed, any following token whose precedence exceeds the minimum is
consumed and fails the parse with the no-infix-rule SyntaxError; in
particular 1 plus 2 and 2 times 3 are unparsable. -/
theorem claimC8 :
    (∀ (fuel : Nat) (recur : Nat → List Token → Except Error (JsonValue × List Token))
      (minPrec : Nat) (left : JsonValue) (t : Token) (rest : List Token) (p : Nat),
      precedenceOf t.ty = some p → minPrec < p →
      infixLoop fuel recur minPrec left (t :: rest) =
        Except.error (Error.SyntaxError ("no infix rule for token " ++ t.ty))) ∧
    parse "1+2" [] 0 = Except.error (Error.SyntaxError "no infix rule for token +") ∧
    parse "2*3" [] 0 = Except.error (Error.SyntaxError "no infix rule for token *") := by
  refine ⟨?_, by decide, by decide⟩
  intro fuel recur minPrec left t rest p hp hlt
  rw [infixLoop, hp]
  simp only [if_neg (show ¬p ≤ minPrec by omega), infix_rules]

/-- Witness for claim C8: the loop statement at a concrete plus token with
precedence 5 over minimum 0. -/
theorem claimC8_witness :
    infixLoop 1 (fun _ _ => Except.error (Error.SyntaxError "x")) 0 JsonValue.null
      [Token.mk "+" ['+'] 1] =
      Except.error (Error.SyntaxError "no infix rule for token +") :=
  claimC8.1 1 (fun _ _ => Except.error (Error.SyntaxError "x")) 0 JsonValue.null
    (Token.mk "+" ['+'] 1) [] 5 (by decide) (by decide)

/-- Claim C6: the reference configuration registers prefix rules only for
number, bang, minus and plus; any input whose first token is of any other
type fails the whole parse with the no-prefix-rule SyntaxError (never a
panic, never a default value). -/
theorem claimC6 :
    (∀ ty ∈ token_types, ty ∉ (["number", "!", "-", "+"] : List String) →
      (prefix_rules ty).isSome = false) ∧
    ∀ (input : String) (t : Token) (ts : List Token) (b : List (String × JsonValue))
      (minPrec : Nat),
      tokenize input = Except.ok (t :: ts) → prefix_rules t.ty = none →
      parse input b minPrec =
        Except.error (Error.SyntaxError ("no prefix rule for token " ++ t.ty)) := by
  constructor
  · decide
  · intro input t ts b minPrec htok hpre
    rw [parse, htok]
    simp only [List.length_cons]
    rw [show ts.length + 1 + 1 = Nat.succ (ts.length + 1) from rfl, parseExpr, hpre]

/-- Witness for claim C6: the keyword true has no prefix rule, so parsing
it fails with the corresponding SyntaxError. -/
theorem claimC6_witness :
    parse "true" [] 0 =
      Except.error (Error.SyntaxError ("no prefix rule for token " ++
        (Token.mk "true" ['t', 'r', 'u', 'e'] 0).ty)) :=
  claimC6.2 "true" (Token.mk "true" ['t', 'r', 'u', 'e'] 0) [] [] 0 (by decide) rfl

theorem parseExpr_ok_number :
    ∀ (fuel minPrec : Nat) (ts : List Token) (v : JsonValue) (ts2 : List Token),
      parseExpr fuel minPrec ts = Except.ok (v, ts2) → ∃ q, v = JsonValue.number q := by
  intro fuel
  induction fuel with
  | zero =>
    intro minPrec ts v ts2 h
    rw [parseExpr] at h
    simp at h
  | succ f ih =>
    intro minPrec ts v ts2 h
    cases ts with
    | nil =>
      rw [parseExpr] at h
      simp at h
    | cons t rest =>
      rw [parseExpr] at h
      by_cases h1 : t.ty = "number"
      · rw [h1, prefix_rules_number] at h
        simp only [prefixNumber] at h
        rcases hpd : parseDecimal t.value with _ | q <;> rw [hpd] at h
        · simp at h
        · exact ⟨q, infixLoop_ok_left h⟩
      · by_cases h2 : t.ty = "!"
        · rw [h2, prefix_rules_bang] at h
          simp only [prefixBang] at h
          rcases hrec : parseExpr f unaryPrec rest with e | ⟨l, r2⟩ <;> rw [hrec] at h
          · simp at h
          · obtain ⟨q, rfl⟩ := ih unaryPrec rest l r2 hrec
            exact ⟨q, infixLoop_ok_left h⟩
        · by_cases h3 : t.ty = "-"
          · rw [h3, prefix_rules_minus] at h
            simp only [prefixMinus] at h
            rcases hrec : parseExpr f unaryPrec rest with e | ⟨l, r2⟩ <;> rw [hrec] at h
            · simp at h
            · simp only [applyUnaryMinus] at h
              rcases hnum : l.as_number with _ | n <;> rw [hnum] at h
              · simp at h
              · exact ⟨-n, infixLoop_ok_left h⟩
          · by_cases h4 : t.ty = "+"
            · rw [h4, prefix_rules_plus] at h
              simp only [prefixPlus] at h
              rcases hrec : parseExpr f unaryPrec rest with e | ⟨l, r2⟩ <;> rw [hrec] at h
              · simp at h
              · simp only [applyUnaryPlus] at h
                rcases hnum : l.as_number with _ | n <;> rw [hnum] at h
                · simp at h
                · exact ⟨n, infixLoop_ok_left h⟩
            · have hnone : prefix_rules t.ty = none := by
                rw [prefix_rules]
                simp [h1, h2, h3, h4]
              rw [hnone] at h
              simp at h

/-- Claim C9: under the reference configuration every successful top-level
parse produces a number value: each registered prefix rule yields a number
or propagates a recursive parse that does, so the non-numeric error branch
of the unary handlers can never fire from a parse. -/
theorem claimC9 :
    ∀ (input : String) (b : List (String × JsonValue)) (minPrec : Nat) (v : JsonValue),
      parse input b minPrec = Except.ok v → ∃ q, v = JsonValue.number q := by
  intro input b minPrec v h
  rw [parse] at h
  rcases htok : tokenize input with e | ts <;> rw [htok] at h
  · simp at h
  · rcases hpe : parseExpr (ts.length + 1) minPrec ts with e | ⟨w, ts2⟩
    · simp [hpe] at h
    · simp only [hpe] at h
      obtain ⟨q, rfl⟩ := parseExpr_ok_number _ _ _ _ _ hpe
      simp at h
      exact ⟨q, h.symm⟩

/-- Witness for claim C9: applied to the successful parse of the
literal 7. -/
theorem claimC9_witness : ∃ q, JsonValue.number 7 = JsonValue.number q :=
  claimC9 "7" [] 0 (JsonValue.number 7) (by decide)

/-- Counterexample for claim C5 as stated: the reference precedence table
names the pseudo-token unary, which is in no token_types list, yet the
construction-time validation of the reference configuration succeeds (as
its own tests require), so the rule that construction fails whenever a
precedence level references a type outside token_types is false, and the
spec-worded strict check rejects the reference configuration. -/
theorem claimC5_counterexample :
    precedence.any (fun lvl => lvl.contains "unary") = true ∧
    token_types.contains "unary" = false ∧
    specStrictPrecedenceOk token_types precedence = false ∧
    newCheck patterns token_types precedence = Except.ok () := by
  decide

/-- Claim C5 as amended: construction fails whenever token_types contains
a type that has no pattern and is not a bare-symbol literal, and whenever
a precedence level with more than one entry references a type outside
token_types; a level holding a single pseudo-token (an associativity or
level marker such as unary or the right-associative marker) is exempt, and
under that exemption the reference configuration constructs
successfully. -/
theorem claimC5 :
    (∀ (pats : List (String × String)) (tts : List String) (prec : List (List String))
      (ty : String),
      ty ∈ tts → (pats.map Prod.fst).contains ty = false → isBareSymbol ty = false →
      ∃ m, newCheck pats tts prec = Except.error (Error.SyntaxError m)) ∧
    (∀ (pats : List (String × String)) (tts : List String) (prec : List (List String))
      (lvl : List String) (ty : String),
      lvl ∈ prec → ty ∈ lvl → tts.contains ty = false → lvl.length ≠ 1 →
      ∃ m, newCheck pats tts prec = Except.error (Error.SyntaxError m)) ∧
    newCheck patterns token_types precedence = Except.ok () := by
  refine ⟨?_, ?_, by decide⟩
  · intro pats tts prec ty hmem hpat hsym
    rcases hf : tts.find? (fun ty => !(pats.map Prod.fst).contains ty && !isBareSymbol ty)
      with _ | ty2
    · exfalso
      apply List.find?_eq_none.mp hf ty hmem
      simp only [Bool.and_eq_true, Bool.not_eq_true']
      exact ⟨hpat, hsym⟩
    · exact ⟨_, by rw [newCheck, hf]⟩
  · intro pats tts prec lvl ty hlvl hty hnot hlen
    rcases hf1 : tts.find? (fun ty => !(pats.map Prod.fst).contains ty && !isBareSymbol ty)
      with _ | ty2
    · rcases hf2 : prec.find? (fun lvl => lvl.length != 1 && lvl.any (fun ty => !tts.contains ty))
        with _ | l2
      · exfalso
        have hnone := List.find?_eq_none.mp hf2 lvl hlvl
        apply hnone
        simp only [Bool.and_eq_true, bne_iff_ne, ne_eq, List.any_eq_true, Bool.not_eq_true']
        exact ⟨hlen, ty, hty, hnot⟩
      · exact ⟨_, by rw [newCheck, hf1, hf2]⟩
    · exact ⟨_, by rw [newCheck, hf1]⟩

/-- Witness for claim C5: a token type with no pattern and a word-like
name fails construction, and a two-entry precedence level naming an
unknown type fails construction. -/
theorem claimC5_witness :
    (∃ m, newCheck [] ["bogus"] [] = Except.error (Error.SyntaxError m)) ∧
    (∃ m, newCheck patterns token_types [["+", "nosuch"]] =
      Except.error (Error.SyntaxError m)) :=
  ⟨claimC5.1 [] ["bogus"] [] "bogus" (by decide) (by decide) (by decide),
    claimC5.2.1 patterns token_types [["+", "nosuch"]] ["+", "nosuch"] "nosuch"
      (by decide) (by decide) (by decide) (by decide)⟩
